import Mathlib

/-!
Shallow embedding of the `querybuilder` package (schema-typed Mongo filter
compiler): schema resolution (`iterateProperties`), token/operator grammar
(`detectComparisonOperator` and friends), per-type clause compilation,
document merging (`combine`) and the `Filter` orchestrator.

Modelling conventions:
* Go strings (ASCII tokens) are modelled as `List Char`; Go's byte slicing
  `s[i:j]` becomes `take`/`drop` on the character list.
* Go maps (`bson.M`, the field-type map, the raw filter map) are modelled as
  association lists with insert-or-replace assignment; Go's nondeterministic
  map iteration is determinized to list order.
* `bson.M`, `bson.D` and `bson.A` are distinct constructors of `BsonValue`
  because `combine` dispatches on these runtime types.
* Parsing performed by external libraries is embedded as follows:
  `strconv.ParseInt`/`ParseBool` are modelled faithfully (base-0 prefixes,
  clamping on range error, errors swallowed to the zero value, exactly as the
  callers discard them); IEEE float parsing (`strconv.ParseFloat`) and
  calendar parsing (`time.Parse`) are abstracted by carrying the raw string
  handed to the parser inside the `float32raw`/`float64raw`/`date`
  constructors — no claim under test depends on float rounding or calendar
  arithmetic, only on which string reaches which parser.
* Go panics (failed type assertions during schema walking) are modelled by
  `Option`, with `none` for a panic.
-/

namespace QB

/-- A Go string viewed as a sequence of (ASCII) characters. -/
abbrev Str := List Char

/-- First-match lookup in an association list (Go map read `m[k]`). -/
def lookupKey {α : Type} : List (String × α) → String → Option α
  | [], _ => none
  | (k', v') :: rest, k => if k' = k then some v' else lookupKey rest k

/-- Insert-or-replace assignment in an association list (Go map write `m[k] = v`). -/
def setKey {α : Type} : List (String × α) → String → α → List (String × α)
  | [], k, v => [(k, v)]
  | (k', v') :: rest, k, v => if k' = k then (k, v) :: rest else (k', v') :: setKey rest k v

/-- BSON values as produced by the filter compiler.  `doc` is `bson.D`,
`mdoc` is `bson.M` (as an association list) and `arr` is `bson.A`; these are
distinct runtime types in the source and `combine` dispatches on them.
`float32raw`/`float64raw`/`date` carry the raw string handed to
`strconv.ParseFloat` / `parseUTCDate` (parsing abstracted, see module header). -/
inductive BsonValue : Type where
  | null
  | bool (b : Bool)
  | int32 (n : Int)
  | int64 (n : Int)
  | float32raw (s : Str)
  | float64raw (s : Str)
  | str (s : Str)
  | date (s : Str)
  | regex (pattern : Str) (options : String)
  | doc (entries : List (String × BsonValue))
  | mdoc (entries : List (String × BsonValue))
  | arr (elems : List BsonValue)

/-- A top-level `bson.M` document (association-list model). -/
abbrev BsonM := List (String × BsonValue)

/-- `LogicalOperator` enumeration from the source. -/
inductive LogicalOperator : Type where
  | and
  | not
  | nor
  | or
  deriving DecidableEq

/-- The `String()` method of `LogicalOperator`. -/
def LogicalOperator.toString : LogicalOperator → String
  | .and => "$and"
  | .not => "$not"
  | .nor => "$nor"
  | .or => "$or"

/-- `value[0:1] == c` for a Go string (false on the empty string; every use in
the source is length-guarded). -/
def headIs (s : Str) (c : Char) : Bool := s.take 1 == [c]

/-- `value[len(value)-1:] == c` for a Go string. -/
def lastIs (s : Str) (c : Char) : Bool := s.getLast? == some c

/-- `reNull.MatchString`: the literal regular expression `null` matches iff
"null" occurs as a contiguous substring. -/
def reNullMatch (s : Str) : Bool :=
  match s with
  | [] => false
  | _ :: rest => ("null".data).isPrefixOf s || reNullMatch rest

/-- `reWord.MatchString`: the regular expression `\w+` matches iff some
character is a word character `[0-9A-Za-z_]`. -/
def reWordMatch (s : Str) : Bool := s.any fun c => c.isAlphanum || c == '_'

/-- The first block of `detectComparisonOperator`: the two-character
prefixes `<=`, `>=`, `!=`, checked only on strings of length ≥ 3. -/
def stripTwoCharOp (value : Str) : Str × String :=
  if value.length ≥ 3 then
    match value with
    | '<' :: '=' :: rest => (rest, "$lte")
    | '>' :: '=' :: rest => (rest, "$gte")
    | '!' :: '=' :: rest => (rest, "$ne")
    | _ => (value, "")
  else (value, "")

/-- The second block of `detectComparisonOperator`: the single-character
prefixes `<`, `>` and — when `isTime` — `-`, checked on the (possibly already
stripped) value of length ≥ 2, keeping the first block's operator when
nothing matches. -/
def stripOneCharOp (value : Str) (oper : String) (isTime : Bool) : Str × String :=
  if value.length ≥ 2 then
    match value with
    | '<' :: rest => (rest, "$lt")
    | '>' :: rest => (rest, "$gt")
    | '-' :: rest => if isTime then (rest, "$ne") else (value, oper)
    | _ => (value, oper)
  else (value, oper)

/-- `detectComparisonOperator(value string, isTime bool) (string, string)`:
strips a recognized comparison prefix (`<=`, `>=`, `!=` two-character forms
checked first, then `<`, `>`, and — only when `isTime` — `-`) and returns the
remaining value together with the Mongo operator key (`""` when none). -/
def detectComparisonOperator (value : Str) (isTime : Bool) : Str × String :=
  if value.length < 2 then (value, "")
  else
    let p1 := stripTwoCharOp value
    stripOneCharOp p1.1 p1.2 isTime

/-- Go's `lower(c) = c | ('x'-'X')` from `strconv`. -/
def lowerC (c : Char) : Char := Char.ofNat (c.toNat ||| 0x20)

/-- Outcome of `strconv.ParseUint`: a value, a range error (the clamped
maximum is returned alongside it) or a syntax error. -/
inductive PUResult : Type where
  | ok (n : Nat)
  | rangeErr
  | synErr
  deriving DecidableEq

/-- `1<<64 - 1`, the `maxVal`/overflow cutoff base for `ParseUint(s, 0, 64)`. -/
def puMax : Nat := 2 ^ 64 - 1

/-- Digit decoding in `ParseUint`'s scan loop. -/
def puDigit (c : Char) : Option Nat :=
  if '0'.toNat ≤ c.toNat ∧ c.toNat ≤ '9'.toNat then some (c.toNat - '0'.toNat)
  else if 'a'.toNat ≤ (lowerC c).toNat ∧ (lowerC c).toNat ≤ 'z'.toNat then
    some ((lowerC c).toNat - 'a'.toNat + 10)
  else none

/-- The digit-accumulation loop of `ParseUint` (base 0 call sites, so `_` is
always tolerated in the scan and validated afterwards); also returns whether
an underscore was seen. -/
def puLoop (base cutoff : Nat) : Str → Nat → Bool → PUResult × Bool
  | [], n, under => (.ok n, under)
  | c :: rest, n, under =>
    if c = '_' then puLoop base cutoff rest n true
    else
      match puDigit c with
      | none => (.synErr, under)
      | some d =>
        if d ≥ base then (.synErr, under)
        else if n ≥ cutoff then (.rangeErr, under)
        else
          let n1 := n * base + d
          if n1 > puMax then (.rangeErr, under) else puLoop base cutoff rest n1 under

/-- `strconv`'s `underscoreOK` state machine (`saw` is `'^'` at start, `'0'`
after a digit, `'_'` after an underscore, `'!'` otherwise). -/
def underscoreLoop (hex : Bool) : Str → Char → Bool
  | [], saw => saw ≠ '_'
  | c :: rest, saw =>
    if ('0'.toNat ≤ c.toNat ∧ c.toNat ≤ '9'.toNat) ∨
        (hex ∧ 'a'.toNat ≤ (lowerC c).toNat ∧ (lowerC c).toNat ≤ 'f'.toNat) then
      underscoreLoop hex rest '0'
    else if c = '_' then
      if saw ≠ '0' then false else underscoreLoop hex rest '_'
    else if saw = '_' then false
    else underscoreLoop hex rest '!'

/-- `strconv.underscoreOK`: underscores must separate successive digits and
may follow a base prefix. -/
def underscoreOK (s : Str) : Bool :=
  let s1 :=
    match s with
    | c :: rest => if c = '-' ∨ c = '+' then rest else s
    | [] => s
  match s1 with
  | '0' :: c1 :: rest =>
    if lowerC c1 = 'b' ∨ lowerC c1 = 'o' ∨ lowerC c1 = 'x' then
      underscoreLoop (lowerC c1 = 'x') rest '0'
    else underscoreLoop false s1 '^'
  | _ => underscoreLoop false s1 '^'

/-- `strconv.ParseUint(s, 0, 64)`: base detection from a `0b`/`0o`/`0x`/`0`
prefix, digit scan with overflow clamping, underscore validation. -/
def goParseUint0 (s : Str) : PUResult :=
  if s = [] then .synErr
  else
    let p : Nat × Str :=
      match s with
      | '0' :: c1 :: rest =>
        if lowerC c1 = 'b' ∧ rest ≠ [] then (2, rest)
        else if lowerC c1 = 'o' ∧ rest ≠ [] then (8, rest)
        else if lowerC c1 = 'x' ∧ rest ≠ [] then (16, rest)
        else (8, c1 :: rest)
      | ['0'] => (8, [])
      | _ => (10, s)
    let cutoff := puMax / p.1 + 1
    match puLoop p.1 cutoff p.2 0 false with
    | (.ok n, under) => if under ∧ ¬ underscoreOK s then .synErr else .ok n
    | (r, _) => r

/-- `strconv.ParseInt(s, 0, bitSize)` with the error discarded, as at every
call site in the source: syntax errors yield 0, range errors yield the
clamped extremum of the `bitSize`-bit signed range. -/
def goParseInt (s : Str) (bitSize : Nat) : Int :=
  if s = [] then 0
  else
    let p : Bool × Str :=
      match s with
      | '+' :: rest => (false, rest)
      | '-' :: rest => (true, rest)
      | _ => (false, s)
    let un : Option Nat :=
      match goParseUint0 p.2 with
      | .ok n => some n
      | .rangeErr => some puMax
      | .synErr => none
    match un with
    | none => 0
    | some un =>
      let cutoff : Nat := 2 ^ (bitSize - 1)
      if ¬ p.1 ∧ un ≥ cutoff then (cutoff : Int) - 1
      else if p.1 ∧ un > cutoff then -(cutoff : Int)
      else if p.1 then -(un : Int) else (un : Int)

/-- `strconv.ParseBool` with the error discarded (the `bool` branch of
`Filter` ignores it): the recognized true literals yield `true`, everything
else — including the recognized false literals — yields `false`. -/
def goParseBool (s : Str) : Bool :=
  s ∈ ([['1'], ['t'], ['T'], "true".data, "TRUE".data, "True".data] : List Str)

/-- `parseUTCDate`: abstracted (see module header) — the parsed, UTC
normalized `time.Time` is represented by the raw string handed to
`time.Parse`. -/
def parseUTCDate (value : Str) : Str := value

/-- The switch on `numericType` at the top of
`detectNumericComparisonOperator` (`nil` return for any other type). -/
def numericBitSize : String → Option Nat
  | "decimal" => some 32
  | "double" => some 64
  | "int" => some 32
  | "long" => some 64
  | _ => none

/-- Parsing of one numeric token value: `strconv.ParseFloat` for
decimal/double (retyped to `float32` when 32-bit; value abstracted as the raw
string), otherwise `strconv.ParseInt(value, 0, bitSize)` retyped to `int32`
when 32-bit. -/
def parseNumericValue (numericType : String) (bitSize : Nat) (value : Str) : BsonValue :=
  if numericType = "decimal" ∨ numericType = "double" then
    if bitSize = 32 then .float32raw value else .float64raw value
  else
    if bitSize = 32 then .int32 (goParseInt value bitSize) else .int64 (goParseInt value bitSize)

/-- One iteration of the multi-value loop in
`detectNumericComparisonOperator`: `acc` is `(a, ina, op)` — operator-bearing
fragments, bare `$in` values, and whether any operator was seen. -/
def numericStep (field : String) (numericType : String) (bitSize : Nat)
    (acc : List BsonValue × List BsonValue × Bool) (value : Str) :
    List BsonValue × List BsonValue × Bool :=
  let so := detectComparisonOperator value false
  let pv := parseNumericValue numericType bitSize so.1
  if so.2 ≠ "" then (acc.1 ++ [.doc [(field, .doc [(so.2, pv)])]], acc.2.1, true)
  else (acc.1, acc.2.1 ++ [pv], acc.2.2)

/-- `detectNumericComparisonOperator(field, values, numericType, lo)`. -/
def detectNumericComparisonOperator (field : String) (values : List Str)
    (numericType : String) (lo : LogicalOperator) : BsonM :=
  match values with
  | [] => []
  | _ =>
    match numericBitSize numericType with
    | none => []
    | some bitSize =>
      match values with
      | [v0] =>
        -- single value: null keyword check precedes parsing, and a leading
        -- "-" is promoted to $ne only on a null match
        let so := detectComparisonOperator v0 false
        if reNullMatch so.1 then
          let oper := if headIs so.1 '-' then "$ne" else so.2
          if oper ≠ "" then [(field, .doc [(oper, .null)])] else [(field, .null)]
        else
          let parsedValue := parseNumericValue numericType bitSize so.1
          if so.2 ≠ "" then [(field, .doc [(so.2, parsedValue)])]
          else [(field, parsedValue)]
      | _ =>
        -- two or more values
        let t := values.foldl (numericStep field numericType bitSize) ([], [], false)
        if t.2.2 then
          let a := if t.2.1.length > 0 then
              t.1 ++ [.doc [(field, .doc [("$in", .arr t.2.1)])]]
            else t.1
          [(lo.toString, .arr a)]
        else [(field, .doc [("$in", .arr t.2.1)])]

/-- One iteration of the multi-value loop in `detectDateComparisonOperator`
(note: called with `isTime = false`, so `-` is not an operator here). -/
def dateStep (field : String) (acc : List BsonValue × List BsonValue × Bool) (v : Str) :
    List BsonValue × List BsonValue × Bool :=
  let so := detectComparisonOperator v false
  let dv := parseUTCDate so.1
  if so.2 ≠ "" then (acc.1 ++ [.doc [(field, .doc [(so.2, .date dv)])]], acc.2.1, true)
  else (acc.1, acc.2.1 ++ [.date dv], acc.2.2)

/-- `detectDateComparisonOperator(field, values, lo)`. -/
def detectDateComparisonOperator (field : String) (values : List Str)
    (lo : LogicalOperator) : BsonM :=
  match values with
  | [] => []
  | [v0] =>
    -- single value: isTime = true, so a lone leading "-" is a $ne alias
    let so := detectComparisonOperator v0 true
    if reNullMatch so.1 then
      if so.2 ≠ "" then [(field, .doc [(so.2, .null)])] else [(field, .null)]
    else
      let dv := parseUTCDate so.1
      if so.2 ≠ "" then [(field, .doc [(so.2, .date dv)])] else [(field, .date dv)]
  | _ =>
    let t := values.foldl (dateStep field) ([], [], false)
    if t.2.2 then
      let a := if t.2.1.length > 0 then
          t.1 ++ [.doc [(field, .doc [("$in", .arr t.2.1)])]]
        else t.1
      [(lo.toString, .arr a)]
    else [(field, .doc [("$in", .arr t.2.1)])]

/-- The star/minus block of the single-token string path
(`if len(value) > 1 { ... }`): returns the stripped value and the flags
`(bw, c, ew, ne)` — begins-with, contains, ends-with, not-equal. -/
def stripStars (value : Str) : Str × Bool × Bool × Bool × Bool :=
  if value.length > 1 then
    let bw := lastIs value '*'
    let ew := headIs value '*'
    let c := bw && ew
    let ne := headIs value '-'
    let v1 := if ne || ew then value.drop 1 else value
    let v2 := if bw then v1.dropLast else v1
    if c then (v2, false, true, false, ne) else (v2, bw, false, ew, ne)
  else (value, false, false, false, false)

/-- The `!=`/quoted block of the single-token string path
(`if len(value) > 2 && !ne { ... }`): returns the stripped value, the
exact-match flag `em` and the updated `ne`. -/
def stripNeQuote (value : Str) (ne : Bool) : Str × Bool × Bool :=
  if value.length > 2 && !ne then
    let ne2 := value.take 2 == ['!', '=']
    let em := headIs value '"' && lastIs value '"'
    let v1 := if ne2 then value.drop 2 else value
    let v2 := if em then (v1.drop 1).dropLast else v1
    (v2, em, ne || ne2)
  else (value, false, ne)

/-- The single-token tail of `detectStringComparisonOperator`: word check,
star/minus stripping, `!=`/quote stripping, then the null / $ne / contains /
begins-with / ends-with / exact-match / literal dispatch. -/
def singleStringClause (field : String) (value : Str) : BsonM :=
  if !reWordMatch value then []
  else
    let s1 := stripStars value
    let s2 := stripNeQuote s1.1 s1.2.2.2.2
    let value2 := s2.1
    let em := s2.2.1
    let ne := s2.2.2
    if reNullMatch value2 then
      if ne then [(field, .doc [("$ne", .null)])] else [(field, .null)]
    else if ne then [(field, .doc [("$ne", .str value2)])]
    else if s1.2.2.1 then [(field, .regex value2 "i")]
    else if s1.2.1 then [(field, .regex ('^' :: value2) "i")]
    else if s1.2.2.2.1 then [(field, .regex (value2 ++ ['$']) "i")]
    else if em then [(field, .regex ('^' :: (value2 ++ ['$'])) "")]
    else [(field, .str value2)]

/-- One token of the `$exists` path for object-typed fields: a `-` prefix
(token length ≥ 2) or `!=` prefix (length ≥ 3) means "must not exist"; the
fragment is assigned under the dotted path `field.token`. -/
def objectExistsStep (field : String) (filter : BsonM) (fn : Str) : BsonM :=
  let p : Bool × Str :=
    if fn.length ≥ 2 ∧ headIs fn '-' then (false, fn.drop 1) else (true, fn)
  let q : Bool × Str :=
    if p.1 ∧ p.2.length ≥ 3 ∧ p.2.take 2 = ['!', '='] then (false, p.2.drop 2) else p
  setKey filter (field ++ "." ++ String.mk q.2) (.doc [("$exists", .bool q.1)])

/-- `detectStringComparisonOperator(field, values, bsonType)`. -/
def detectStringComparisonOperator (field : String) (values : List Str)
    (bsonType : String) : BsonM :=
  match values with
  | [] => []
  | _ =>
    if bsonType = "object" then
      -- exists-mode: each token names a sub-field
      values.foldl (objectExistsStep field) []
    else
      match values with
      | _ :: _ :: _ =>
        -- two or more values: raw literal array for pure array fields,
        -- $in membership for strings
        let a : List BsonValue := values.foldl (fun acc v => acc ++ [.str v]) []
        if bsonType = "array" then [(field, .arr a)]
        else [(field, .doc [("$in", .arr a)])]
      | [value] => singleStringClause field value
      | [] => []

/-- `combine(a, b)`: fold `b` into `a`; same-key `bson.M` values merge
recursively, same-key `bson.A` values concatenate (`a`'s elements first),
anything else is overwritten by `b`'s value. -/
def combine (a : BsonM) : BsonM → BsonM
  | [] => a
  | (k, .mdoc vm) :: rest =>
    -- both values are bson.M: merge recursively
    let a1 :=
      match lookupKey a k with
      | some (.mdoc evm) => setKey a k (.mdoc (combine evm vm))
      | _ => setKey a k (.mdoc vm)
    combine a1 rest
  | (k, .arr va) :: rest =>
    -- both values are bson.A: append the second array to the first
    let a1 :=
      match lookupKey a k with
      | some (.arr eva) => setKey a k (.arr (eva ++ va))
      | _ => setKey a k (.arr va)
    combine a1 rest
  | (k, v) :: rest => combine (setKey a k v) rest

/-- Any value found by `lookupKey` is structurally smaller than the list. -/
theorem sizeOf_lookupKey {α : Type} [SizeOf α] :
    ∀ (l : List (String × α)) (k : String) (v : α), lookupKey l k = some v → sizeOf v < sizeOf l := by
  intro l k v h
  induction l with
  | nil => simp [lookupKey] at h
  | cons hd tl ih =>
    obtain ⟨k', v'⟩ := hd
    simp only [lookupKey] at h
    split at h
    · cases h
      simp only [List.cons.sizeOf_spec, Prod.mk.sizeOf_spec]
      omega
    · have := ih h
      simp only [List.cons.sizeOf_spec, Prod.mk.sizeOf_spec]
      omega

/-- Schema values as traversed by `iterateProperties`: a string (as carried
by `bsonType`), a nested `bson.M` document, or any other value (skipped at
the property level, a panic where a type assertion demands otherwise). -/
inductive SVal : Type where
  | str (s : String)
  | doc (entries : List (String × SVal))
  | other

/-- `iterateProperties(parentPrefix, properties, ft)`: records
`prefix+name → bsonType` for each property, overwrites an `array` type with
the declared `items.bsonType` when present, recurses into nested
`properties` (of the items document when the type was `array` with items),
and falls back to `object` for enum-only properties.  `none` models a Go
panic on a failed type assertion. -/
def iterateProperties (parentPrefix : String) (properties : List (String × SVal))
    (ft : List (String × String)) : Option (List (String × String)) :=
  match properties with
  | [] => some ft
  | (field, v) :: rest =>
    match v with
    | .str _ => iterateProperties parentPrefix rest ft
    | .other => iterateProperties parentPrefix rest ft
    | .doc m =>
      match lookupKey m "bsonType" with
      | some (.doc _) => none
      | some .other => none
      | some (.str bsonType) =>
        let path := parentPrefix ++ field
        let ft1 := if bsonType ≠ "" then setKey ft path bsonType else ft
        if bsonType = "array" then
          match him : lookupKey m "items" with
          | some (.str _) => none
          | some .other => none
          | some (.doc im) =>
            match lookupKey im "bsonType" with
            | some (.doc _) => none
            | some .other => none
            | some (.str bt2) =>
              let ft2 := if bt2 ≠ "" then setKey ft1 path bt2 else ft1
              match hsp : lookupKey im "properties" with
              | some (.doc sp) =>
                match iterateProperties (path ++ ".") sp ft2 with
                | none => none
                | some ft3 => iterateProperties parentPrefix rest ft3
              | some (.str _) => none
              | some .other => none
              | none => iterateProperties parentPrefix rest ft2
            | none =>
              match hsp : lookupKey im "properties" with
              | some (.doc sp) =>
                match iterateProperties (path ++ ".") sp ft1 with
                | none => none
                | some ft3 => iterateProperties parentPrefix rest ft3
              | some (.str _) => none
              | some .other => none
              | none => iterateProperties parentPrefix rest ft1
          | none =>
            match hsp : lookupKey m "properties" with
            | some (.doc sp) =>
              match iterateProperties (path ++ ".") sp ft1 with
              | none => none
              | some ft3 => iterateProperties parentPrefix rest ft3
            | some (.str _) => none
            | some .other => none
            | none => iterateProperties parentPrefix rest ft1
        else
          match hsp : lookupKey m "properties" with
          | some (.doc sp) =>
            match iterateProperties (path ++ ".") sp ft1 with
            | none => none
            | some ft3 => iterateProperties parentPrefix rest ft3
          | some (.str _) => none
          | some .other => none
          | none => iterateProperties parentPrefix rest ft1
      | none =>
        match lookupKey m "enum" with
        | some _ => iterateProperties parentPrefix rest (setKey ft (parentPrefix ++ field) "object")
        | none => iterateProperties parentPrefix rest ft
termination_by sizeOf properties
decreasing_by
  all_goals simp_wf
  all_goals
    first
    | omega
    | (have h1 := sizeOf_lookupKey _ _ _ him
       have h2 := sizeOf_lookupKey _ _ _ hsp
       simp only [SVal.doc.sizeOf_spec] at h1 h2
       omega)
    | (have h2 := sizeOf_lookupKey _ _ _ hsp
       simp only [SVal.doc.sizeOf_spec] at h2
       omega)

/-- The `QueryBuilder` receiver state: collection name, resolved field-type
map, strict-validation flag. -/
structure QueryBuilder : Type where
  collection : String
  fieldTypes : List (String × String)
  strictValidation : Bool

/-- The per-field loop of `QueryBuilder.Filter`: strict-mode gate on fields
whose resolved type is empty, then the per-type dispatch, folding each
fragment into the running filter with `combine`. -/
def filterLoop (qb : QueryBuilder) (oper : LogicalOperator) (filter : BsonM) :
    List (String × List Str) → Except String BsonM
  | [] => .ok filter
  | (field, values) :: rest =>
    let bsonType := (lookupKey qb.fieldTypes field).getD ""
    if bsonType = "" ∧ qb.strictValidation then
      .error ("field " ++ field ++ " does not exist in collection " ++ qb.collection)
    else
      let filter1 :=
        match bsonType with
        | "array" | "object" | "string" =>
          combine filter (detectStringComparisonOperator field values bsonType)
        | "bool" =>
          values.foldl (fun f value => combine f [(field, .bool (goParseBool value))]) filter
        | "date" | "timestamp" =>
          combine filter (detectDateComparisonOperator field values oper)
        | "decimal" | "double" | "int" | "long" =>
          combine filter (detectNumericComparisonOperator field values bsonType oper)
        | _ => filter
      filterLoop qb oper filter1 rest

/-- `QueryBuilder.Filter(qo, o...)`: variadic logical-operator override
defaulting to `$and`; iterates the filter map (determinized to list order)
and returns the folded filter document or the strict-mode error. -/
def Filter (qb : QueryBuilder) (qoFilter : List (String × List Str))
    (o : List LogicalOperator := []) : Except String BsonM :=
  let oper :=
    match o with
    | [] => LogicalOperator.and
    | x :: _ => x
  filterLoop qb oper [] qoFilter


/-! ### Helper lemmas -/

/-- Folding with snoc-append is mapping. -/
theorem foldl_push {α β : Type} (g : α → β) :
    ∀ (vs : List α) (acc : List β),
      vs.foldl (fun a v => a ++ [g v]) acc = acc ++ vs.map g
  | [], acc => by simp
  | v :: rest, acc => by
    simp only [List.foldl_cons, List.map_cons]
    rw [foldl_push g rest]
    simp

/-- Operator-bearing token classification as used by the multi-value numeric
and date paths (which call `detectComparisonOperator` with `isTime = false`). -/
def isOpTok (v : Str) : Bool := decide ((detectComparisonOperator v false).2 ≠ "")

/-- The parsed numeric value of a token after operator stripping. -/
def numericParsed (numericType : String) (bitSize : Nat) (v : Str) : BsonValue :=
  parseNumericValue numericType bitSize (detectComparisonOperator v false).1

/-- The `{field: {oper: value}}` element built from an operator-bearing token
in the multi-value numeric path. -/
def numericOpFrag (field numericType : String) (bitSize : Nat) (v : Str) : BsonValue :=
  .doc [(field, .doc [((detectComparisonOperator v false).2,
    numericParsed numericType bitSize v)])]

/-- Closed form of the multi-value numeric accumulation loop: operator
fragments in token order, bare parsed values in token order, and the
any-operator flag. -/
theorem numericStep_foldl (field numericType : String) (bitSize : Nat) :
    ∀ (vs : List Str) (a ina : List BsonValue) (op : Bool),
      vs.foldl (numericStep field numericType bitSize) (a, ina, op) =
        (a ++ (vs.filter isOpTok).map (numericOpFrag field numericType bitSize),
          ina ++ (vs.filter fun v => !isOpTok v).map (numericParsed numericType bitSize),
          op || vs.any isOpTok)
  | [], a, ina, op => by simp
  | v :: rest, a, ina, op => by
    by_cases h : (detectComparisonOperator v false).2 = ""
    · have hop : isOpTok v = false := by simp [isOpTok, h]
      have hstep : numericStep field numericType bitSize (a, ina, op) v =
          (a, ina ++ [numericParsed numericType bitSize v], op) := by
        simp [numericStep, numericParsed, h]
      rw [List.foldl_cons, hstep, numericStep_foldl field numericType bitSize rest]
      simp [List.filter_cons, List.any_cons, hop, List.append_assoc]
    · have hop : isOpTok v = true := by simp [isOpTok, h]
      have hstep : numericStep field numericType bitSize (a, ina, op) v =
          (a ++ [numericOpFrag field numericType bitSize v], ina, true) := by
        simp [numericStep, numericOpFrag, numericParsed, h]
      rw [List.foldl_cons, hstep, numericStep_foldl field numericType bitSize rest]
      simp [List.filter_cons, List.any_cons, hop, List.append_assoc]

/-! ### C1 -/

/-- C1: for an int/long/decimal/double field and ≥ 2 tokens, the compiled
clause classifies each token by operator extraction: all bare tokens give
`{field: {"$in": [parsed values...]}}`; otherwise one `{field: {oper: value}}`
fragment per operator-bearing token in token order, followed — when bare
tokens also exist — by exactly one trailing `{field: {"$in": [bare values]}}`
fragment, wrapped under the logical-operator key. -/
theorem claim1_numeric_multi_token_classification
    (field : String) (values : List Str) (numericType : String) (bitSize : Nat)
    (lo : LogicalOperator)
    (hbs : numericBitSize numericType = some bitSize)
    (hlen : values.length ≥ 2) :
    (values.any isOpTok = false →
      detectNumericComparisonOperator field values numericType lo =
        [(field, .doc [("$in", .arr (values.map (numericParsed numericType bitSize)))])]) ∧
    (values.any isOpTok = true →
      detectNumericComparisonOperator field values numericType lo =
        [(lo.toString, .arr
          ((values.filter isOpTok).map (numericOpFrag field numericType bitSize) ++
            if (values.filter fun v => !isOpTok v) = [] then []
            else [.doc [(field, .doc [("$in", .arr
              ((values.filter fun v => !isOpTok v).map
                (numericParsed numericType bitSize)))])]]))]) := by
  rcases values with _ | ⟨v1, _ | ⟨v2, rest⟩⟩
  · simp at hlen
  · simp at hlen
  · constructor
    · intro hall
      have hfilter : ((v1 :: v2 :: rest).filter fun v => !isOpTok v) = v1 :: v2 :: rest := by
        rw [List.filter_eq_self]
        intro x hx
        have := (List.any_eq_false.mp hall) x hx
        simp [this]
      simp only [detectNumericComparisonOperator, hbs]
      rw [numericStep_foldl]
      simp [hall, hfilter]
    · intro hsome
      simp only [detectNumericComparisonOperator, hbs]
      rw [numericStep_foldl]
      by_cases hbare : ((v1 :: v2 :: rest).filter fun v => !isOpTok v) = []
      · simp [hsome, hbare]
      · have hlenf : 0 < (((v1 :: v2 :: rest).filter fun v => !isOpTok v).map
            (numericParsed numericType bitSize)).length := by
          rw [List.length_map]
          exact List.length_pos.mpr hbare
        simp [hsome, hbare, hlenf]

/-- Witness for C1 at the claim's own example: int tokens
`[">=1","<5","!=3","2","4"]` under the default `$and`. -/
theorem claim1_witness :
    numericBitSize "int" = some 32 ∧
    ([">=1".data, "<5".data, "!=3".data, "2".data, "4".data] : List Str).length ≥ 2 ∧
    detectNumericComparisonOperator "age"
        [">=1".data, "<5".data, "!=3".data, "2".data, "4".data] "int" .and =
      [("$and", .arr [
        .doc [("age", .doc [("$gte", .int32 1)])],
        .doc [("age", .doc [("$lt", .int32 5)])],
        .doc [("age", .doc [("$ne", .int32 3)])],
        .doc [("age", .doc [("$in", .arr [.int32 2, .int32 4])])]])] :=
  ⟨rfl, by decide,
    ((claim1_numeric_multi_token_classification "age"
      [">=1".data, "<5".data, "!=3".data, "2".data, "4".data] "int" 32 .and rfl
      (by decide)).2 (by decide)).trans rfl⟩

/-! ### C4 -/

/-- C4: `combine` concatenates same-key `bson.A` arrays with the
accumulator's elements first; in particular two fields that each compiled to
a 2-entry `$and` group fold into one top-level `$and` holding all four
conditions in field order, token order. -/
theorem claim4_merge_array_concat :
    (∀ (a : BsonM) (k : String) (xs ys : List BsonValue),
      lookupKey a k = some (.arr xs) →
      combine a [(k, .arr ys)] = setKey a k (.arr (xs ++ ys))) ∧
    Filter ⟨"c", [("a", "int"), ("b", "int")], false⟩
        [("a", [">1".data, "<5".data]), ("b", [">2".data, "<6".data])] [] =
      .ok [("$and", .arr [
        .doc [("a", .doc [("$gt", .int32 1)])],
        .doc [("a", .doc [("$lt", .int32 5)])],
        .doc [("b", .doc [("$gt", .int32 2)])],
        .doc [("b", .doc [("$lt", .int32 6)])]])] := by
  constructor
  · intro a k xs ys h
    simp [combine, h]
  · have ha : detectNumericComparisonOperator "a" [">1".data, "<5".data] "int" .and =
        [("$and", .arr [.doc [("a", .doc [("$gt", .int32 1)])],
          .doc [("a", .doc [("$lt", .int32 5)])]])] := rfl
    have hb : detectNumericComparisonOperator "b" [">2".data, "<6".data] "int" .and =
        [("$and", .arr [.doc [("b", .doc [("$gt", .int32 2)])],
          .doc [("b", .doc [("$lt", .int32 6)])]])] := rfl
    simp [Filter, filterLoop, ha, hb, combine, lookupKey, setKey]

/-- Witness for C4's hypothesis-bearing conjunct at a concrete accumulator. -/
theorem claim4_witness :
    lookupKey [("$and", BsonValue.arr [.null])] "$and" = some (.arr [.null]) ∧
    combine [("$and", .arr [.null])] [("$and", .arr [.bool true])] =
      [("$and", .arr [.null, .bool true])] :=
  ⟨rfl, (claim4_merge_array_concat.1 [("$and", .arr [.null])] "$and" [.null]
    [.bool true] rfl).trans rfl⟩

/-! ### C7 -/

/-- C7: an `array`-typed field (no declared item type) with ≥ 2 tokens
compiles to a raw literal array assignment, not `$in`. -/
theorem claim7_array_literal (field : String) (values : List Str)
    (hlen : values.length ≥ 2) :
    detectStringComparisonOperator field values "array" =
      [(field, .arr (values.map BsonValue.str))] := by
  rcases values with _ | ⟨v1, _ | ⟨v2, rest⟩⟩
  · simp at hlen
  · simp at hlen
  · simp [detectStringComparisonOperator, foldl_push]

/-- Witness for C7 at the claim's example tokens `["a","b","c"]`. -/
theorem claim7_witness :
    (["a".data, "b".data, "c".data] : List Str).length ≥ 2 ∧
    detectStringComparisonOperator "f" ["a".data, "b".data, "c".data] "array" =
      [("f", .arr [.str "a".data, .str "b".data, .str "c".data])] :=
  ⟨by decide, (claim7_array_literal "f" ["a".data, "b".data, "c".data] (by decide)).trans rfl⟩

/-! ### C2 and C10 -/

/-- With strict validation on, a filter field whose resolved type is empty
aborts the loop with an unknown-field error for some offending field. -/
theorem filterLoop_error_of_unknown (qb : QueryBuilder) (oper : LogicalOperator)
    (hstrict : qb.strictValidation = true) :
    ∀ (l : List (String × List Str)) (acc : BsonM) (field : String) (values : List Str),
      (field, values) ∈ l → lookupKey qb.fieldTypes field = none →
      ∃ f', filterLoop qb oper acc l =
        .error ("field " ++ f' ++ " does not exist in collection " ++ qb.collection)
  | [], _, _, _, hmem, _ => by simp at hmem
  | (f0, v0) :: tl, acc, field, values, hmem, hlk => by
    by_cases h0 : (lookupKey qb.fieldTypes f0).getD "" = ""
    · refine ⟨f0, ?_⟩
      simp [filterLoop, h0, hstrict]
    · rcases List.mem_cons.mp hmem with heq | hmem'
      · cases heq
        simp [hlk] at h0
      · simp only [filterLoop]
        rw [if_neg fun hc => h0 hc.1]
        exact filterLoop_error_of_unknown qb oper hstrict tl _ field values hmem' hlk

/-- Without strict validation the loop never fails. -/
theorem filterLoop_ok_of_nonstrict (qb : QueryBuilder) (oper : LogicalOperator)
    (h : qb.strictValidation = false) :
    ∀ (l : List (String × List Str)) (acc : BsonM), ∃ m, filterLoop qb oper acc l = .ok m
  | [], acc => ⟨acc, rfl⟩
  | (f0, v0) :: tl, acc => by
    simp only [filterLoop]
    rw [if_neg (by simp [h])]
    exact filterLoop_ok_of_nonstrict qb oper h tl _

/-- A field whose resolved type is outside the supported switch (including
the empty type when strict mode is off) is processed as a no-op. -/
theorem filterLoop_step_skip (qb : QueryBuilder) (oper : LogicalOperator)
    (field : String) (values : List Str) (rest : List (String × List Str)) (acc : BsonM)
    (hne : ¬((lookupKey qb.fieldTypes field).getD "" = "" ∧ qb.strictValidation = true))
    (hns : (lookupKey qb.fieldTypes field).getD "" ∉
      (["array", "object", "string", "bool", "date", "timestamp",
        "decimal", "double", "int", "long"] : List String)) :
    filterLoop qb oper acc ((field, values) :: rest) = filterLoop qb oper acc rest := by
  simp only [List.mem_cons, not_or] at hns
  obtain ⟨h1, h2, h3, h4, h5, h6, h7, h8, h9, h10⟩ := hns
  simp only [filterLoop]
  rw [if_neg hne]
  simp [h1, h2, h3, h4, h5, h6, h7, h8, h9, h10]

/-- Removing a skipped field from anywhere in the filter list leaves the
loop's result unchanged. -/
theorem filterLoop_append_skip (qb : QueryBuilder) (oper : LogicalOperator)
    (field : String) (values : List Str) (l2 : List (String × List Str))
    (hskip : ∀ (acc : BsonM) (rest : List (String × List Str)),
      filterLoop qb oper acc ((field, values) :: rest) = filterLoop qb oper acc rest) :
    ∀ (l1 : List (String × List Str)) (acc : BsonM),
      filterLoop qb oper acc (l1 ++ (field, values) :: l2) =
        filterLoop qb oper acc (l1 ++ l2)
  | [], acc => hskip acc l2
  | (f0, v0) :: tl, acc => by
    simp only [List.cons_append, filterLoop]
    by_cases h0 : (lookupKey qb.fieldTypes f0).getD "" = "" ∧ qb.strictValidation = true
    · rw [if_pos h0, if_pos h0]
    · rw [if_neg h0, if_neg h0]
      exact filterLoop_append_skip qb oper field values l2 hskip tl _

/-- C2: a filter field absent from the resolved field-type map makes `Filter`
fail with an unknown-field error under strict validation (no partial
document), and contributes no fragment — with compilation succeeding — when
strict validation is off. -/
theorem claim2_strict_mode_gate (qb : QueryBuilder) (lo : List LogicalOperator)
    (l1 l2 : List (String × List Str)) (field : String) (values : List Str)
    (hlk : lookupKey qb.fieldTypes field = none) :
    (qb.strictValidation = true →
      ∃ f', Filter qb (l1 ++ (field, values) :: l2) lo =
        .error ("field " ++ f' ++ " does not exist in collection " ++ qb.collection)) ∧
    (qb.strictValidation = false →
      Filter qb (l1 ++ (field, values) :: l2) lo = Filter qb (l1 ++ l2) lo ∧
      ∃ m, Filter qb (l1 ++ l2) lo = .ok m) := by
  constructor
  · intro hstrict
    exact filterLoop_error_of_unknown qb _ hstrict _ [] field values (by simp) hlk
  · intro hstrict
    constructor
    · exact filterLoop_append_skip qb _ field values l2
        (fun acc rest => filterLoop_step_skip qb _ field values rest acc
          (by simp [hstrict]) (by simp [hlk])) l1 []
    · exact filterLoop_ok_of_nonstrict qb _ hstrict _ []

/-- Witness for C2 at a concrete builder and filter map. -/
theorem claim2_witness :
    (∃ f', Filter ⟨"users", [("name", "string")], true⟩ [("bogus", [['x']])] [] =
      .error ("field " ++ f' ++ " does not exist in collection " ++ "users")) ∧
    Filter ⟨"users", [("name", "string")], false⟩
        [("bogus", [['x']]), ("name", [['b'], ['c']])] [] =
      Filter ⟨"users", [("name", "string")], false⟩ [("name", [['b'], ['c']])] [] :=
  ⟨(claim2_strict_mode_gate ⟨"users", [("name", "string")], true⟩ [] [] []
      "bogus" [['x']] rfl).1 rfl,
    ((claim2_strict_mode_gate ⟨"users", [("name", "string")], false⟩ [] []
      [("name", [['b'], ['c']])] "bogus" [['x']] rfl).2 rfl).1⟩

/-- C10: a filter field that is present in the field-type map with a
non-empty type outside the supported set contributes no fragment and raises
no error, even under strict validation. -/
theorem claim10_unsupported_type_skipped (qb : QueryBuilder) (lo : List LogicalOperator)
    (l1 l2 : List (String × List Str)) (field : String) (values : List Str) (t : String)
    (hlk : lookupKey qb.fieldTypes field = some t)
    (hns : t ∉ (["array", "object", "string", "bool", "date", "timestamp",
      "decimal", "double", "int", "long"] : List String))
    (hne : t ≠ "") :
    Filter qb (l1 ++ (field, values) :: l2) lo = Filter qb (l1 ++ l2) lo ∧
    Filter qb [(field, values)] lo = .ok [] := by
  have hskip : ∀ (acc : BsonM) (rest : List (String × List Str)),
      filterLoop qb (match lo with | [] => LogicalOperator.and | x :: _ => x) acc
          ((field, values) :: rest) =
        filterLoop qb (match lo with | [] => LogicalOperator.and | x :: _ => x) acc rest := by
    intro acc rest
    exact filterLoop_step_skip qb _ field values rest acc
      (by simp [hlk, hne]) (by simpa [hlk] using hns)
  constructor
  · exact filterLoop_append_skip qb _ field values l2 hskip l1 []
  · exact (hskip [] []).trans rfl

/-- Witness for C10: an `objectId`-typed field is skipped even in strict
mode, both standalone and between other fields. -/
theorem claim10_witness :
    Filter ⟨"users", [("uid", "objectId"), ("age", "int")], true⟩
        [("uid", [['5']]), ("age", [['7']])] [] =
      Filter ⟨"users", [("uid", "objectId"), ("age", "int")], true⟩ [("age", [['7']])] [] ∧
    Filter ⟨"users", [("uid", "objectId"), ("age", "int")], true⟩ [("uid", [['5']])] [] = .ok [] :=
  ⟨(claim10_unsupported_type_skipped ⟨"users", [("uid", "objectId"), ("age", "int")], true⟩
      [] [] [("age", [['7']])] "uid" [['5']] "objectId" rfl (by decide) (by decide)).1,
    (claim10_unsupported_type_skipped ⟨"users", [("uid", "objectId"), ("age", "int")], true⟩
      [] [] [] "uid" [['5']] "objectId" rfl (by decide) (by decide)).2⟩

/-! ### String single-token helpers -/

theorem headIs_cons (a : Char) (l : Str) (c : Char) : headIs (a :: l) c = (a == c) := by
  simp [headIs]

theorem headIs_append (w l : Str) (c : Char) (hw : w ≠ []) :
    headIs (w ++ l) c = headIs w c := by
  cases w with
  | nil => exact absurd rfl hw
  | cons a t => simp [headIs]

theorem lastIs_append_single (w : Str) (x c : Char) : lastIs (w ++ [x]) c = (x == c) := by
  simp [lastIs, List.getLast?_concat]

theorem lastIs_cons_of_ne_nil (a : Char) (w : Str) (c : Char) (hw : w ≠ []) :
    lastIs (a :: w) c = lastIs w c := by
  cases w with
  | nil => exact absurd rfl hw
  | cons b t => simp [lastIs]

/-- A trailing (and only trailing) `*` strips to a begins-with marker. -/
theorem stripStars_trailing_star (w : Str) (hw : w ≠ [])
    (hstar : headIs w '*' = false) (hminus : headIs w '-' = false) :
    stripStars (w ++ ['*']) = (w, true, false, false, false) := by
  have hlen : (w ++ ['*']).length > 1 := by
    cases w with
    | nil => exact absurd rfl hw
    | cons a t => simp
  simp [stripStars, hlen, lastIs_append_single, headIs_append _ _ _ hw, hstar, hminus, hw]

/-- A leading (and only leading) `*` strips to an ends-with marker. -/
theorem stripStars_leading_star (w : Str) (hw : w ≠ []) (hlast : lastIs w '*' = false) :
    stripStars ('*' :: w) = (w, false, false, true, false) := by
  have hlen : ('*' :: w).length > 1 := by
    cases w with
    | nil => exact absurd rfl hw
    | cons a t => simp
  simp [stripStars, hlen, lastIs_cons_of_ne_nil _ _ _ hw, hlast, headIs_cons, hw]

/-- A leading and trailing `*` strips to a contains marker. -/
theorem stripStars_both (w : Str) :
    stripStars ('*' :: (w ++ ['*'])) = (w, false, true, false, false) := by
  have hne : w ++ ['*'] ≠ [] := by simp
  have hlen : ('*' :: (w ++ ['*'])).length > 1 := by simp
  simp [stripStars, hlen, lastIs_cons_of_ne_nil _ _ _ hne, lastIs_append_single, headIs_cons]

/-- A leading `-` (no trailing star) strips to a not-equal marker. -/
theorem stripStars_minus (w : Str) (hw : w ≠ []) (hlast : lastIs w '*' = false) :
    stripStars ('-' :: w) = (w, false, false, false, true) := by
  have hlen : ('-' :: w).length > 1 := by
    cases w with
    | nil => exact absurd rfl hw
    | cons a t => simp
  simp [stripStars, hlen, lastIs_cons_of_ne_nil _ _ _ hw, hlast, headIs_cons, hw]

/-- No star or minus markers: the block is the identity. -/
theorem stripStars_plain (v : Str) (hlast : lastIs v '*' = false)
    (hstar : headIs v '*' = false) (hminus : headIs v '-' = false) :
    stripStars v = (v, false, false, false, false) := by
  by_cases hlen : v.length > 1
  · simp [stripStars, hlen, hlast, hstar, hminus]
  · simp [stripStars, hlen]

/-- The `!=`/quote block is skipped entirely after a `ne` marker. -/
theorem stripNeQuote_of_ne (v : Str) : stripNeQuote v true = (v, false, true) := by
  simp [stripNeQuote]

/-- The `!=`/quote block is the identity when neither marker applies. -/
theorem stripNeQuote_id (v : Str)
    (h : v.length > 2 → v.take 2 ≠ ['!', '='] ∧ (headIs v '"' = false ∨ lastIs v '"' = false)) :
    stripNeQuote v false = (v, false, false) := by
  by_cases hlen : v.length > 2
  · obtain ⟨hne2, hem⟩ := h hlen
    rcases hem with hem | hem <;>
      simp [stripNeQuote, hlen, hne2, hem]
  · simp [stripNeQuote, hlen]

/-- A leading `!=` strips to a not-equal marker. -/
theorem stripNeQuote_bangeq (w : Str) (hw : w ≠ []) :
    stripNeQuote ('!' :: '=' :: w) false = (w, false, true) := by
  have hlen : ('!' :: '=' :: w).length > 2 := by
    cases w with
    | nil => exact absurd rfl hw
    | cons a t => simp
  simp [stripNeQuote, hlen, List.take, headIs_cons, List.length_pos, hw]

/-- Matching wrapping double quotes strip to an exact-match marker. -/
theorem stripNeQuote_quoted (w : Str) (hw : w ≠ []) :
    stripNeQuote ('"' :: (w ++ ['"'])) false = (w, true, false) := by
  have hlen : ('"' :: (w ++ ['"'])).length > 2 := by
    cases w with
    | nil => exact absurd rfl hw
    | cons a t => simp
  have hq : headIs ('"' :: (w ++ ['"'])) '"' = true := by simp [headIs_cons]
  have hq2 : lastIs ('"' :: (w ++ ['"'])) '"' = true := by
    rw [lastIs_cons_of_ne_nil _ _ _ (by simp), lastIs_append_single]
    rfl
  simp [stripNeQuote, hlen, hq, hq2, List.take, List.dropLast_concat, List.length_pos, hw]

/-- A single token on a string-typed (non-object) field goes through
`singleStringClause`. -/
theorem detectString_single (f : String) (v : Str) :
    detectStringComparisonOperator f [v] "string" = singleStringClause f v := by
  simp [detectStringComparisonOperator]

/-! ### C3 -/

/-- C3: single-token string pattern laws — trailing `*` gives the
case-insensitive begins-with regex `^value`; leading `*` the case-insensitive
ends-with regex `value$`; leading and trailing `*` the case-insensitive
contains regex `value`; matching wrapping double quotes the case-sensitive
anchored regex `^value$`; a leading `!=` or lone leading `-` gives
`{field: {"$ne": value}}`; no marker compiles to literal equality. -/
theorem claim3_string_pattern_laws :
    (∀ (f : String) (w : Str), w ≠ [] →
      reWordMatch (w ++ ['*']) = true →
      headIs w '*' = false → headIs w '-' = false →
      (w.length > 2 → w.take 2 ≠ ['!', '='] ∧ (headIs w '"' = false ∨ lastIs w '"' = false)) →
      reNullMatch w = false →
      detectStringComparisonOperator f [w ++ ['*']] "string" =
        [(f, .regex ('^' :: w) "i")]) ∧
    (∀ (f : String) (w : Str), w ≠ [] →
      reWordMatch ('*' :: w) = true →
      lastIs w '*' = false →
      (w.length > 2 → w.take 2 ≠ ['!', '='] ∧ (headIs w '"' = false ∨ lastIs w '"' = false)) →
      reNullMatch w = false →
      detectStringComparisonOperator f ['*' :: w] "string" =
        [(f, .regex (w ++ ['$']) "i")]) ∧
    (∀ (f : String) (w : Str),
      reWordMatch ('*' :: (w ++ ['*'])) = true →
      (w.length > 2 → w.take 2 ≠ ['!', '='] ∧ (headIs w '"' = false ∨ lastIs w '"' = false)) →
      reNullMatch w = false →
      detectStringComparisonOperator f ['*' :: (w ++ ['*'])] "string" =
        [(f, .regex w "i")]) ∧
    (∀ (f : String) (w : Str), w ≠ [] →
      reWordMatch ('"' :: (w ++ ['"'])) = true →
      reNullMatch w = false →
      detectStringComparisonOperator f ['"' :: (w ++ ['"'])] "string" =
        [(f, .regex ('^' :: (w ++ ['$'])) "")]) ∧
    (∀ (f : String) (w : Str), w ≠ [] →
      reWordMatch ('!' :: '=' :: w) = true →
      lastIs w '*' = false →
      reNullMatch w = false →
      detectStringComparisonOperator f ['!' :: '=' :: w] "string" =
        [(f, .doc [("$ne", .str w)])]) ∧
    (∀ (f : String) (w : Str), w ≠ [] →
      reWordMatch ('-' :: w) = true →
      lastIs w '*' = false →
      reNullMatch w = false →
      detectStringComparisonOperator f ['-' :: w] "string" =
        [(f, .doc [("$ne", .str w)])]) ∧
    (∀ (f : String) (v : Str),
      reWordMatch v = true →
      lastIs v '*' = false → headIs v '*' = false → headIs v '-' = false →
      (v.length > 2 → v.take 2 ≠ ['!', '='] ∧ (headIs v '"' = false ∨ lastIs v '"' = false)) →
      reNullMatch v = false →
      detectStringComparisonOperator f [v] "string" = [(f, .str v)]) := by
  refine ⟨?_, ?_, ?_, ?_, ?_, ?_, ?_⟩
  · intro f w hw hword hstar hminus hq hnull
    have h1 := stripStars_trailing_star w hw hstar hminus
    have h2 := stripNeQuote_id w hq
    rw [detectString_single]
    simp [singleStringClause, hword, h1, h2, hnull]
  · intro f w hw hword hlast hq hnull
    have h1 := stripStars_leading_star w hw hlast
    have h2 := stripNeQuote_id w hq
    rw [detectString_single]
    simp [singleStringClause, hword, h1, h2, hnull]
  · intro f w hword hq hnull
    have h1 := stripStars_both w
    have h2 := stripNeQuote_id w hq
    rw [detectString_single]
    simp [singleStringClause, hword, h1, h2, hnull]
  · intro f w hw hword hnull
    have hlast : lastIs ('"' :: (w ++ ['"'])) '*' = false := by
      rw [lastIs_cons_of_ne_nil _ _ _ (by simp), lastIs_append_single]
      rfl
    have hstar : headIs ('"' :: (w ++ ['"'])) '*' = false := by
      rw [headIs_cons]
      rfl
    have hminus : headIs ('"' :: (w ++ ['"'])) '-' = false := by
      rw [headIs_cons]
      rfl
    have h1 := stripStars_plain _ hlast hstar hminus
    have h2 := stripNeQuote_quoted w hw
    rw [detectString_single]
    simp [singleStringClause, hword, h1, h2, hnull]
  · intro f w hw hword hlast hnull
    have hlast' : lastIs ('!' :: '=' :: w) '*' = false := by
      rw [lastIs_cons_of_ne_nil _ _ _ (by simp),
        lastIs_cons_of_ne_nil _ _ _ hw]
      exact hlast
    have hstar : headIs ('!' :: '=' :: w) '*' = false := by
      rw [headIs_cons]
      rfl
    have hminus : headIs ('!' :: '=' :: w) '-' = false := by
      rw [headIs_cons]
      rfl
    have h1 := stripStars_plain _ hlast' hstar hminus
    have h2 := stripNeQuote_bangeq w hw
    rw [detectString_single]
    simp [singleStringClause, hword, h1, h2, hnull]
  · intro f w hw hword hlast hnull
    have h1 := stripStars_minus w hw hlast
    have h2 := stripNeQuote_of_ne w
    rw [detectString_single]
    simp [singleStringClause, hword, h1, h2, hnull]
  · intro f v hword hlast hstar hminus hq hnull
    have h1 := stripStars_plain v hlast hstar hminus
    have h2 := stripNeQuote_id v hq
    rw [detectString_single]
    simp [singleStringClause, hword, h1, h2, hnull]

/-- Witness for C3 at the token family over the payload "value". -/
theorem claim3_witness :
    detectStringComparisonOperator "n" ["value*".data] "string" =
      [("n", .regex "^value".data "i")] ∧
    detectStringComparisonOperator "n" ["*value".data] "string" =
      [("n", .regex "value$".data "i")] ∧
    detectStringComparisonOperator "n" ["*value*".data] "string" =
      [("n", .regex "value".data "i")] ∧
    detectStringComparisonOperator "n" ["\"value\"".data] "string" =
      [("n", .regex "^value$".data "")] ∧
    detectStringComparisonOperator "n" ["!=value".data] "string" =
      [("n", .doc [("$ne", .str "value".data)])] ∧
    detectStringComparisonOperator "n" ["-value".data] "string" =
      [("n", .doc [("$ne", .str "value".data)])] ∧
    detectStringComparisonOperator "n" ["value".data] "string" =
      [("n", .str "value".data)] :=
  ⟨(claim3_string_pattern_laws.1 "n" "value".data (by decide) (by decide) (by decide)
      (by decide) (by decide) (by decide)).trans rfl,
    (claim3_string_pattern_laws.2.1 "n" "value".data (by decide) (by decide) (by decide)
      (by decide) (by decide)).trans rfl,
    (claim3_string_pattern_laws.2.2.1 "n" "value".data (by decide) (by decide)
      (by decide)).trans rfl,
    (claim3_string_pattern_laws.2.2.2.1 "n" "value".data (by decide) (by decide)
      (by decide)).trans rfl,
    (claim3_string_pattern_laws.2.2.2.2.1 "n" "value".data (by decide) (by decide)
      (by decide) (by decide)).trans rfl,
    (claim3_string_pattern_laws.2.2.2.2.2.1 "n" "value".data (by decide) (by decide)
      (by decide) (by decide)).trans rfl,
    (claim3_string_pattern_laws.2.2.2.2.2.2 "n" "value".data (by decide) (by decide)
      (by decide) (by decide) (by decide) (by decide)).trans rfl⟩

/-! ### C6 -/

/-- C6: for an object-typed field each token names a sub-field; a bare token
maps to `{field.sub: {"$exists": true}}`, a `-`- or `!=`-prefixed token to
`{field.sub: {"$exists": false}}`, and all per-token fragments are folded
into one document keyed by dotted path with no logical-operator grouping. -/
theorem claim6_object_exists :
    (∀ (f : String) (v : Str),
      ¬(v.length ≥ 2 ∧ headIs v '-' = true) →
      ¬(v.length ≥ 3 ∧ v.take 2 = ['!', '=']) →
      detectStringComparisonOperator f [v] "object" =
        [(f ++ "." ++ String.mk v, .doc [("$exists", .bool true)])]) ∧
    (∀ (f : String) (w : Str), w ≠ [] →
      detectStringComparisonOperator f ['-' :: w] "object" =
        [(f ++ "." ++ String.mk w, .doc [("$exists", .bool false)])]) ∧
    (∀ (f : String) (w : Str), w ≠ [] →
      detectStringComparisonOperator f ['!' :: '=' :: w] "object" =
        [(f ++ "." ++ String.mk w, .doc [("$exists", .bool false)])]) ∧
    detectStringComparisonOperator "f" ["sub1".data, "!=sub2".data] "object" =
      [("f.sub1", .doc [("$exists", .bool true)]),
        ("f.sub2", .doc [("$exists", .bool false)])] := by
  refine ⟨?_, ?_, ?_, rfl⟩
  · intro f v h1 h2
    simp [detectStringComparisonOperator, objectExistsStep, h1, h2, setKey]
  · intro f w hw
    have hlen : ('-' :: w).length ≥ 2 := by
      cases w with
      | nil => exact absurd rfl hw
      | cons a t => simp
    have hhead : headIs ('-' :: w) '-' = true := by
      rw [headIs_cons]
      rfl
    have hp : 1 ≤ List.length w := List.length_pos.mpr hw
    simp [detectStringComparisonOperator, objectExistsStep, hlen, hhead, hp, setKey]
  · intro f w hw
    have hlen : ('!' :: '=' :: w).length ≥ 3 := by
      cases w with
      | nil => exact absurd rfl hw
      | cons a t => simp
    have hhead : headIs ('!' :: '=' :: w) '-' = false := by
      rw [headIs_cons]
      rfl
    have hp : 1 ≤ List.length w := List.length_pos.mpr hw
    simp [detectStringComparisonOperator, objectExistsStep, hlen, hhead, hp, setKey, List.take]

/-- Witness for C6's hypothesis-bearing conjuncts at concrete sub-field
tokens. -/
theorem claim6_witness :
    detectStringComparisonOperator "f" ["sub".data] "object" =
      [("f.sub", .doc [("$exists", .bool true)])] ∧
    detectStringComparisonOperator "f" ["-sub".data] "object" =
      [("f.sub", .doc [("$exists", .bool false)])] ∧
    detectStringComparisonOperator "f" ["!=sub".data] "object" =
      [("f.sub", .doc [("$exists", .bool false)])] :=
  ⟨(claim6_object_exists.1 "f" "sub".data (by decide) (by decide)).trans rfl,
    (claim6_object_exists.2.1 "f" "sub".data (by decide)).trans rfl,
    (claim6_object_exists.2.2.1 "f" "sub".data (by decide)).trans rfl⟩

/-! ### C5 (corrected) -/

/-- Counterexample to C5 as stated: a single token `"-5"` on an int-typed
field compiles to `{field: -5}` — the minus sign is kept and parsed, not
turned into `$ne`. -/
theorem claim5_counterexample :
    detectNumericComparisonOperator "age" ["-5".data] "int" .and =
      [("age", .int32 (-5))] ∧
    ([("age", BsonValue.int32 (-5))] : BsonM) ≠
      [("age", BsonValue.doc [("$ne", BsonValue.int32 5)])] :=
  ⟨rfl, by simp⟩

theorem stripTwoCharOp_lte (w : Str) (hw : w ≠ []) :
    stripTwoCharOp ('<' :: '=' :: w) = (w, "$lte") := by
  have hlen : ('<' :: '=' :: w).length ≥ 3 := by
    cases w with
    | nil => exact absurd rfl hw
    | cons a t => simp
  simp [stripTwoCharOp, hlen, hw]

theorem stripTwoCharOp_gte (w : Str) (hw : w ≠ []) :
    stripTwoCharOp ('>' :: '=' :: w) = (w, "$gte") := by
  have hlen : ('>' :: '=' :: w).length ≥ 3 := by
    cases w with
    | nil => exact absurd rfl hw
    | cons a t => simp
  simp [stripTwoCharOp, hlen, hw]

theorem stripTwoCharOp_bangeq (w : Str) (hw : w ≠ []) :
    stripTwoCharOp ('!' :: '=' :: w) = (w, "$ne") := by
  have hlen : ('!' :: '=' :: w).length ≥ 3 := by
    cases w with
    | nil => exact absurd rfl hw
    | cons a t => simp
  simp [stripTwoCharOp, hlen, hw]

theorem stripTwoCharOp_minus (w : Str) : stripTwoCharOp ('-' :: w) = ('-' :: w, "") := by
  by_cases hlen : ('-' :: w).length ≥ 3 <;> simp [stripTwoCharOp, hlen]

theorem stripTwoCharOp_single_lt (w : Str) (h : headIs w '=' = false) :
    stripTwoCharOp ('<' :: w) = ('<' :: w, "") := by
  cases w with
  | nil => simp [stripTwoCharOp]
  | cons a t =>
    have ha : ¬(a = '=') := by simpa [headIs_cons] using h
    by_cases hlen : ('<' :: a :: t).length ≥ 3 <;> simp [stripTwoCharOp, hlen, ha]

theorem stripTwoCharOp_single_gt (w : Str) (h : headIs w '=' = false) :
    stripTwoCharOp ('>' :: w) = ('>' :: w, "") := by
  cases w with
  | nil => simp [stripTwoCharOp]
  | cons a t =>
    have ha : ¬(a = '=') := by simpa [headIs_cons] using h
    by_cases hlen : ('>' :: a :: t).length ≥ 3 <;> simp [stripTwoCharOp, hlen, ha]

theorem stripOneCharOp_lt (w : Str) (oper : String) (isTime : Bool) (hw : w ≠ []) :
    stripOneCharOp ('<' :: w) oper isTime = (w, "$lt") := by
  have hlen : ('<' :: w).length ≥ 2 := by
    cases w with
    | nil => exact absurd rfl hw
    | cons a t => simp
  simp [stripOneCharOp, hlen, hw]

theorem stripOneCharOp_gt (w : Str) (oper : String) (isTime : Bool) (hw : w ≠ []) :
    stripOneCharOp ('>' :: w) oper isTime = (w, "$gt") := by
  have hlen : ('>' :: w).length ≥ 2 := by
    cases w with
    | nil => exact absurd rfl hw
    | cons a t => simp
  simp [stripOneCharOp, hlen, hw]

theorem stripOneCharOp_minus_true (w : Str) (oper : String) (hw : w ≠ []) :
    stripOneCharOp ('-' :: w) oper true = (w, "$ne") := by
  have hlen : ('-' :: w).length ≥ 2 := by
    cases w with
    | nil => exact absurd rfl hw
    | cons a t => simp
  simp [stripOneCharOp, hlen, hw]

theorem stripOneCharOp_minus_false (w : Str) (oper : String) :
    stripOneCharOp ('-' :: w) oper false = ('-' :: w, oper) := by
  by_cases hlen : ('-' :: w).length ≥ 2 <;> simp [stripOneCharOp, hlen]

/-- The single-character block keeps the first block's result when no
single-character prefix applies. -/
theorem stripOneCharOp_skip (value : Str) (oper : String) (isTime : Bool)
    (hlt : headIs value '<' = false) (hgt : headIs value '>' = false)
    (hm : isTime = true → headIs value '-' = false) :
    stripOneCharOp value oper isTime = (value, oper) := by
  cases value with
  | nil => simp [stripOneCharOp]
  | cons a t =>
    have ha1 : ¬(a = '<') := by simpa [headIs_cons] using hlt
    have ha2 : ¬(a = '>') := by simpa [headIs_cons] using hgt
    by_cases hlen : (a :: t).length ≥ 2
    · by_cases ha3 : a = '-'
      · subst ha3
        cases isTime with
        | false => simp [stripOneCharOp, hlen]
        | true =>
          have := hm rfl
          simp [headIs_cons] at this
      · simp [stripOneCharOp, hlen, ha1, ha2, ha3]
    · have ht : t = [] := by
        cases t with
        | nil => rfl
        | cons b u => simp at hlen
      subst ht
      simp [stripOneCharOp]

/-- `detectComparisonOperator` is the composition of its two blocks on values
of length ≥ 2. -/
theorem detectComparisonOperator_eq (value : Str) (isTime : Bool)
    (h : ¬(value.length < 2)) :
    detectComparisonOperator value isTime =
      stripOneCharOp (stripTwoCharOp value).1 (stripTwoCharOp value).2 isTime := by
  simp [detectComparisonOperator, h]

/-- A leading `-` is never an operator outside the `isTime` path. -/
theorem detectComparisonOperator_minus_false (w : Str) :
    detectComparisonOperator ('-' :: w) false = ('-' :: w, "") := by
  by_cases hw : ('-' :: w).length < 2
  · have hw0 : w = [] := by
      cases w with
      | nil => rfl
      | cons a t =>
        simp only [List.length_cons] at hw
        omega
    subst hw0
    simp [detectComparisonOperator]
  · rw [detectComparisonOperator_eq _ _ hw, stripTwoCharOp_minus]
    exact stripOneCharOp_minus_false w ""

/-- C5 as amended: prefix stripping for `<=`, `>=`, `!=`, `<`, `>`; a lone
leading `-` is a `$ne` alias only in the single-token date/timestamp path
and (on numeric fields) only for null-containing tokens — otherwise a numeric
leading `-` is the number's sign and the token parses as a negative value. -/
theorem claim5_amended_operator_extraction :
    (∀ (w : Str) (isTime : Bool), w ≠ [] →
      headIs w '<' = false → headIs w '>' = false →
      (isTime = true → headIs w '-' = false) →
      detectComparisonOperator ('<' :: '=' :: w) isTime = (w, "$lte") ∧
      detectComparisonOperator ('>' :: '=' :: w) isTime = (w, "$gte") ∧
      detectComparisonOperator ('!' :: '=' :: w) isTime = (w, "$ne")) ∧
    (∀ (w : Str) (isTime : Bool), w ≠ [] → headIs w '=' = false →
      detectComparisonOperator ('<' :: w) isTime = (w, "$lt") ∧
      detectComparisonOperator ('>' :: w) isTime = (w, "$gt")) ∧
    (∀ (w : Str), detectComparisonOperator ('-' :: w) false = ('-' :: w, "")) ∧
    (∀ (f : String) (w : Str) (lo : LogicalOperator), w ≠ [] →
      reNullMatch w = false →
      detectDateComparisonOperator f ['-' :: w] lo =
        [(f, .doc [("$ne", .date (parseUTCDate w))])]) ∧
    (∀ (f : String) (w : Str) (numericType : String) (bitSize : Nat)
        (lo : LogicalOperator),
      numericBitSize numericType = some bitSize →
      reNullMatch ('-' :: w) = false →
      detectNumericComparisonOperator f ['-' :: w] numericType lo =
        [(f, parseNumericValue numericType bitSize ('-' :: w))]) := by
  refine ⟨?_, ?_, ?_, ?_, ?_⟩
  · intro w isTime hw hlt hgt hm
    have hlen : ¬(('<' :: '=' :: w).length < 2) := by simp
    have hlen2 : ¬(('>' :: '=' :: w).length < 2) := by simp
    have hlen3 : ¬(('!' :: '=' :: w).length < 2) := by simp
    refine ⟨?_, ?_, ?_⟩
    · rw [detectComparisonOperator_eq _ _ hlen, stripTwoCharOp_lte w hw]
      exact stripOneCharOp_skip w "$lte" isTime hlt hgt hm
    · rw [detectComparisonOperator_eq _ _ hlen2, stripTwoCharOp_gte w hw]
      exact stripOneCharOp_skip w "$gte" isTime hlt hgt hm
    · rw [detectComparisonOperator_eq _ _ hlen3, stripTwoCharOp_bangeq w hw]
      exact stripOneCharOp_skip w "$ne" isTime hlt hgt hm
  · intro w isTime hw heq
    have hlen : ¬(('<' :: w).length < 2) := by
      cases w with
      | nil => exact absurd rfl hw
      | cons a t => simp
    have hlen2 : ¬(('>' :: w).length < 2) := by
      cases w with
      | nil => exact absurd rfl hw
      | cons a t => simp
    constructor
    · rw [detectComparisonOperator_eq _ _ hlen, stripTwoCharOp_single_lt w heq]
      exact stripOneCharOp_lt w "" isTime hw
    · rw [detectComparisonOperator_eq _ _ hlen2, stripTwoCharOp_single_gt w heq]
      exact stripOneCharOp_gt w "" isTime hw
  · exact detectComparisonOperator_minus_false
  · intro f w lo hw hnull
    have hlen : ¬(('-' :: w).length < 2) := by
      cases w with
      | nil => exact absurd rfl hw
      | cons a t => simp
    have hso : detectComparisonOperator ('-' :: w) true = (w, "$ne") := by
      rw [detectComparisonOperator_eq _ _ hlen, stripTwoCharOp_minus]
      exact stripOneCharOp_minus_true w "" hw
    simp [detectDateComparisonOperator, hso, hnull]
  · intro f w numericType bitSize lo hbs hnull
    have hso := detectComparisonOperator_minus_false w
    simp [detectNumericComparisonOperator, hbs, hso, hnull]

/-- Witness for C5's amended statement: `"-5"` on int parses as `-5`;
`"-2021-01-01"` on a date field becomes `$ne` of the parsed date; `"<=3"`
strips to `($lte, "3")`. -/
theorem claim5_witness :
    detectNumericComparisonOperator "age" ["-5".data] "int" .and =
      [("age", .int32 (-5))] ∧
    detectDateComparisonOperator "d" ["-2021-01-01".data] .and =
      [("d", .doc [("$ne", .date "2021-01-01".data)])] ∧
    detectComparisonOperator "<=3".data false = ("3".data, "$lte") :=
  ⟨((claim5_amended_operator_extraction.2.2.2.2 "age" "5".data "int" 32 .and rfl
      (by decide)).trans rfl),
    (claim5_amended_operator_extraction.2.2.2.1 "d" "2021-01-01".data .and
      (by decide) (by decide)).trans rfl,
    ((claim5_amended_operator_extraction.1 "3".data false (by decide) (by decide)
      (by decide) (by decide)).1).trans rfl⟩

/-! ### C9 (corrected) -/

/-- A token whose (stripped) text contains "null" always contains the word
character `n`, so the `\w+` gate passes. -/
theorem reWordMatch_of_null : ∀ (v : Str), reNullMatch v = true → reWordMatch v = true
  | [], h => by simp [reNullMatch] at h
  | c :: rest, h => by
    rw [reNullMatch, Bool.or_eq_true] at h
    rcases h with hp | hr
    · have hc : c = 'n' := by
        simp [List.isPrefixOf] at hp
        exact hp.1.symm
      subst hc
      simp [reWordMatch]
    · have ih := reWordMatch_of_null rest hr
      simp only [reWordMatch, List.any_cons, Bool.or_eq_true]
      right
      exact ih

/-- Counterexample to C9 as stated: the int token `">=null"` contains "null"
but carries neither a `-` nor a `!=` prefix, and compiles to
`{age: {"$gte": null}}` — not to `{age: null}` and not to
`{age: {"$ne": null}}`. -/
theorem claim9_counterexample :
    detectNumericComparisonOperator "age" [">=null".data] "int" .and =
      [("age", .doc [("$gte", .null)])] ∧
    ([("age", BsonValue.doc [("$gte", BsonValue.null)])] : BsonM) ≠
      [("age", BsonValue.null)] ∧
    ([("age", BsonValue.doc [("$gte", BsonValue.null)])] : BsonM) ≠
      [("age", BsonValue.doc [("$ne", BsonValue.null)])] :=
  ⟨rfl, by simp, by simp⟩

/-- C9 as amended: the null special case of single-token coercion is
substring containment on the operator-stripped token and never reaches the
numeric/date parser; the compiled fragment is `{field: null}` when no
operator was extracted, and `{field: {op: null}}` for a stripped comparison
prefix `op` — with a leading `-` forcing `$ne` on numeric fields, and
`-`/`!=` giving `$ne` for date and string fields. -/
theorem claim9_amended_null_containment :
    (∀ (f : String) (v : Str) (numericType : String) (bitSize : Nat)
        (lo : LogicalOperator) (value : Str) (oper : String),
      numericBitSize numericType = some bitSize →
      detectComparisonOperator v false = (value, oper) →
      reNullMatch value = true →
      detectNumericComparisonOperator f [v] numericType lo =
        (if headIs value '-' then [(f, .doc [("$ne", .null)])]
          else if oper ≠ "" then [(f, .doc [(oper, .null)])]
          else [(f, .null)])) ∧
    (∀ (f : String) (v : Str) (lo : LogicalOperator) (value : Str) (oper : String),
      detectComparisonOperator v true = (value, oper) →
      reNullMatch value = true →
      detectDateComparisonOperator f [v] lo =
        (if oper ≠ "" then [(f, .doc [(oper, .null)])] else [(f, .null)])) ∧
    (∀ (f : String) (v : Str),
      lastIs v '*' = false → headIs v '*' = false → headIs v '-' = false →
      (v.length > 2 → v.take 2 ≠ ['!', '='] ∧ (headIs v '"' = false ∨ lastIs v '"' = false)) →
      reNullMatch v = true →
      detectStringComparisonOperator f [v] "string" = [(f, .null)]) ∧
    (∀ (f : String) (w : Str), w ≠ [] →
      lastIs w '*' = false →
      reNullMatch w = true →
      detectStringComparisonOperator f ['-' :: w] "string" =
        [(f, .doc [("$ne", .null)])]) ∧
    (∀ (f : String) (w : Str), w ≠ [] →
      lastIs w '*' = false →
      reNullMatch w = true →
      detectStringComparisonOperator f ['!' :: '=' :: w] "string" =
        [(f, .doc [("$ne", .null)])]) := by
  refine ⟨?_, ?_, ?_, ?_, ?_⟩
  · intro f v numericType bitSize lo value oper hbs hdet hnull
    by_cases hm : headIs value '-' = true
    · simp [detectNumericComparisonOperator, hbs, hdet, hnull, hm]
    · by_cases ho : oper = ""
      · simp [detectNumericComparisonOperator, hbs, hdet, hnull, hm, ho]
      · simp [detectNumericComparisonOperator, hbs, hdet, hnull, hm, ho]
  · intro f v lo value oper hdet hnull
    by_cases ho : oper = "" <;>
      simp [detectDateComparisonOperator, hdet, hnull, ho]
  · intro f v hlast hstar hminus hq hnull
    have hword := reWordMatch_of_null v hnull
    have h1 := stripStars_plain v hlast hstar hminus
    have h2 := stripNeQuote_id v hq
    rw [detectString_single]
    simp [singleStringClause, hword, h1, h2, hnull]
  · intro f w hw hlast hnull
    have hword : reWordMatch ('-' :: w) = true := by
      have := reWordMatch_of_null w hnull
      simp only [reWordMatch, List.any_cons, Bool.or_eq_true]
      right
      exact this
    have h1 := stripStars_minus w hw hlast
    have h2 := stripNeQuote_of_ne w
    rw [detectString_single]
    simp [singleStringClause, hword, h1, h2, hnull]
  · intro f w hw hlast hnull
    have hword : reWordMatch ('!' :: '=' :: w) = true := by
      have := reWordMatch_of_null w hnull
      simp only [reWordMatch, List.any_cons, Bool.or_eq_true]
      right
      right
      exact this
    have hlast' : lastIs ('!' :: '=' :: w) '*' = false := by
      rw [lastIs_cons_of_ne_nil _ _ _ (by simp),
        lastIs_cons_of_ne_nil _ _ _ hw]
      exact hlast
    have hstar : headIs ('!' :: '=' :: w) '*' = false := by
      rw [headIs_cons]
      rfl
    have hminus : headIs ('!' :: '=' :: w) '-' = false := by
      rw [headIs_cons]
      rfl
    have h1 := stripStars_plain _ hlast' hstar hminus
    have h2 := stripNeQuote_bangeq w hw
    rw [detectString_single]
    simp [singleStringClause, hword, h1, h2, hnull]

/-- Witness for C9's amended statement: `"annulled"` (substring containment,
no prefix) gives `{f: null}` on int; `"<null"` on a date field gives
`{f: {"$lt": null}}`; `"-null"` on a string field gives `{f: {"$ne": null}}`. -/
theorem claim9_witness :
    detectNumericComparisonOperator "f" ["annulled".data] "int" .and = [("f", .null)] ∧
    detectDateComparisonOperator "f" ["<null".data] .and =
      [("f", .doc [("$lt", .null)])] ∧
    detectStringComparisonOperator "f" ["-null".data] "string" =
      [("f", .doc [("$ne", .null)])] :=
  ⟨(claim9_amended_null_containment.1 "f" "annulled".data "int" 32 .and
      "annulled".data "" rfl rfl (by decide)).trans rfl,
    (claim9_amended_null_containment.2.1 "f" "<null".data .and "null".data "$lt"
      rfl (by decide)).trans rfl,
    (claim9_amended_null_containment.2.2.2.1 "f" "null".data (by decide)
      (by decide) (by decide)).trans rfl⟩

/-! ### C8 -/

/-- C8: during schema resolution an `array` property with a declared
`items.bsonType` is recorded under its dotted path with the item's type
instead of `array`; an `array` property without a declared `items.bsonType`
keeps the `array` tag. -/
theorem claim8_array_item_type :
    (∀ (pfx name : String) (m im : List (String × SVal)) (t : String),
      lookupKey m "bsonType" = some (.str "array") →
      lookupKey m "items" = some (.doc im) →
      lookupKey im "bsonType" = some (.str t) → t ≠ "" →
      lookupKey im "properties" = none →
      iterateProperties pfx [(name, .doc m)] [] = some [(pfx ++ name, t)]) ∧
    (∀ (pfx name : String) (m : List (String × SVal)),
      lookupKey m "bsonType" = some (.str "array") →
      lookupKey m "items" = none →
      lookupKey m "properties" = none →
      iterateProperties pfx [(name, .doc m)] [] = some [(pfx ++ name, "array")]) ∧
    (∀ (pfx name : String) (m im : List (String × SVal)),
      lookupKey m "bsonType" = some (.str "array") →
      lookupKey m "items" = some (.doc im) →
      lookupKey im "bsonType" = none →
      lookupKey im "properties" = none →
      iterateProperties pfx [(name, .doc m)] [] = some [(pfx ++ name, "array")]) := by
  refine ⟨?_, ?_, ?_⟩
  · intro pfx name m im t hbt hit hibt ht hip
    simp only [iterateProperties, hbt, setKey, ne_eq]
    rw [if_pos trivial]
    split
    all_goals rename_i heq
    all_goals rw [hit] at heq
    all_goals first
      | exact Option.noConfusion heq
      | (injection heq with h
         exact SVal.noConfusion h)
      | (simp only [Option.some.injEq, SVal.doc.injEq] at heq
         subst heq
         simp only [hibt]
         split
         all_goals rename_i heq2
         all_goals rw [hip] at heq2
         all_goals first
           | exact Option.noConfusion heq2
           | simp [ht])
  · intro pfx name m hbt hit hp
    simp only [iterateProperties, hbt, setKey, ne_eq]
    rw [if_pos trivial]
    split
    all_goals rename_i heq
    all_goals rw [hit] at heq
    all_goals first
      | exact Option.noConfusion heq
      | (split
         all_goals rename_i heq2
         all_goals rw [hp] at heq2
         all_goals first
           | exact Option.noConfusion heq2
           | simp)
  · intro pfx name m im hbt hit hibt hip
    simp only [iterateProperties, hbt, setKey, ne_eq]
    rw [if_pos trivial]
    split
    all_goals rename_i heq
    all_goals rw [hit] at heq
    all_goals first
      | exact Option.noConfusion heq
      | (injection heq with h
         exact SVal.noConfusion h)
      | (simp only [Option.some.injEq, SVal.doc.injEq] at heq
         subst heq
         simp only [hibt]
         split
         all_goals rename_i heq2
         all_goals rw [hip] at heq2
         all_goals first
           | exact Option.noConfusion heq2
           | simp)

/-- Witness for C8 at a concrete one-property schema with and without a
declared item type. -/
theorem claim8_witness :
    iterateProperties "" [("tags", .doc [("bsonType", .str "array"),
        ("items", .doc [("bsonType", .str "string")])])] [] = some [("tags", "string")] ∧
    iterateProperties "" [("tags", .doc [("bsonType", .str "array")])] [] =
      some [("tags", "array")] :=
  ⟨(claim8_array_item_type.1 "" "tags"
      [("bsonType", .str "array"), ("items", .doc [("bsonType", .str "string")])]
      [("bsonType", .str "string")] "string" rfl rfl rfl (by decide) rfl).trans rfl,
    (claim8_array_item_type.2.1 "" "tags" [("bsonType", .str "array")]
      rfl rfl rfl).trans rfl⟩

end QB
